import Mathlib

/-!
Shallow embedding of the window-identity-resolution and viewport-centering
core of the OneNote remote-control application.

Sources embedded:
  * src/src/core/window_manager.py  (WindowManager: get_process_image_path,
    enumerate_windows, is_onenote_window, score_candidate,
    find_window_by_signature)
  * src/src/automation/scrolling_engine.py  (ScrollingEngine:
    center_element_in_view, scroll_selected_to_center)
  * src/src/constants.py  (the constants those functions read)

OS / automation-library effects (Win32 queries, pywinauto, comtypes) are
modelled as explicit environment records of functions; a Python call that may
raise is modelled with Except.  Python machine integers are unbounded, so Nat
and Int are used directly; rectangle midpoints are half-integers, so vertical
offsets are modelled as rationals.
-/

namespace OneNoteRemocon

/-! ## Constants (src/src/constants.py) -/

def ONENOTE_CLASS_NAME : String := "ApplicationFrameWindow"

def ONENOTE_KEYWORDS : List String := ["onenote", "원노트"]

def ONENOTE_EXE_NAMES : List String := ["onenote.exe", "onenoteim.exe"]

def SCROLL_MAX_REPEATS : Int := 5

def SCROLL_CENTER_TOLERANCE : ℚ := 10

/-! ## Python primitives used by the embedded code -/

/-- Python substring test: the expression "needle in haystack" on str. -/
def pyIn (needle haystack : String) : Bool :=
  decide (needle.toList <:+: haystack.toList)

/-- Python str.lower.  The repository only lowercases ASCII window-class
names, titles and executable names plus the caseless Korean keyword, for
which ASCII case folding coincides with Python semantics. -/
def pyLower (s : String) : String := String.mk (s.data.map Char.toLower)

/-- os.path.basename on Windows paths: the part after the last path
separator (backslash or forward slash). -/
def basename (s : String) : String :=
  String.mk (s.data.foldl (fun acc c => if c = '\\' || c = '/' then [] else acc ++ [c]) [])

/-- Python truthiness of an optional integer (None and 0 are falsy). -/
def optIntTruthy : Option Int → Bool
  | none => false
  | some n => n != 0

/-- Python truthiness of an optional natural (None and 0 are falsy). -/
def optNatTruthy : Option Nat → Bool
  | none => false
  | some n => n != 0

/-- Python truthiness of an optional string (None and "" are falsy). -/
def optStrTruthy : Option String → Bool
  | none => false
  | some s => s != ""

/-! ## Data model

A window-info dictionary as produced by WindowManager.enumerate_windows and
consumed by score_candidate / is_onenote_window.  Fields are optional because
the consumers read them with dict.get, which yields None for missing keys. -/

structure Candidate where
  handle : Option Int
  title : Option String
  class_name : Option String
  pid : Option Nat
deriving DecidableEq

/-- A stored window signature as built by create_window_signature; every
field may be None. -/
structure Signature where
  handle : Option Int
  pid : Option Nat
  class_name : Option String
  title : Option String
  exe_path : Option String
  exe_name : Option String
deriving DecidableEq

/-- Observable behaviour of WindowManager.get_process_image_path as seen by a
caller handing it a nonzero pid: it may raise (modelled as Except.error), or
return None, or return the full image path. -/
def Inspect : Type := Nat → Except Unit (Option String)

/-- get_process_image_path applied to an arbitrary optional pid: the source
returns None for a falsy pid (None or 0) before touching the OS, so only a
truthy pid can reach the fallible part. -/
def inspectPid (env : Inspect) : Option Nat → Except Unit (Option String)
  | none => .ok none
  | some p => if p = 0 then .ok none else env p

/-! ## WindowManager.score_candidate (window_manager.py lines 274-336) -/

/-- The candidate executable name computed at the start of score_candidate:
basename of the resolved path, lowercased, or "" when there is no path. -/
def exe_name_of (exe_path_opt : Option String) : String :=
  let exe_path := exe_path_opt.getD ""
  if exe_path != "" then pyLower (basename exe_path) else ""

/-- The body of score_candidate inside its try block.  The only fallible
step is the process-image lookup; all other reads are pure dictionary
accesses. -/
def score_candidate_checked (env : Inspect) (c : Candidate) (sig : Signature) :
    Except Unit Int :=
  match inspectPid env c.pid with
  | .error e => .error e
  | .ok exe_path_opt =>
    let title := pyLower (c.title.getD "")
    let cls := c.class_name.getD ""
    let exe_name := exe_name_of exe_path_opt
    let score : Int := 0
    let score := if optIntTruthy sig.handle && (c.handle == sig.handle) then score + 100 else score
    let score := if optStrTruthy sig.exe_name && (sig.exe_name == some exe_name) then score + 50 else score
    let score := if pyIn "onenote.exe" exe_name then score + 50 else score
    let score := if ONENOTE_KEYWORDS.any (fun k => pyIn k title) then score + 25 else score
    let score := if optStrTruthy sig.class_name && (sig.class_name == some cls) then score + 10 else score
    let score := if optNatTruthy sig.pid && (c.pid == sig.pid) then score + 8 else score
    let prev := pyLower (sig.title.getD "")
    let score := if prev != "" then
        (if pyIn prev title then score + 6
         else if ONENOTE_KEYWORDS.any (fun k => pyIn k prev && pyIn k title) then score + 4
         else score)
      else score
    let score := if cls == ONENOTE_CLASS_NAME then score + 5 else score
    .ok score

/-- WindowManager.score_candidate: the except-handler turns any internal
failure into the score -1. -/
def score_candidate (env : Inspect) (c : Candidate) (sig : Signature) : Int :=
  match score_candidate_checked env c sig with
  | .ok s => s
  | .error _ => -1

/-! ### The scoring conditions, factored out for the monotonicity claim -/

/-- Truth values of the individual scoring conditions of score_candidate. -/
structure ScoreConds where
  handleEq : Bool
  exeEq : Bool
  exeTarget : Bool
  titleKw : Bool
  classEq : Bool
  pidEq : Bool
  prevSub : Bool
  prevKw : Bool
  classFrame : Bool
deriving DecidableEq

/-- The additive point total of score_candidate as a function of the
condition truth values (the substring / shared-keyword branch over the
previous title is exclusive, substring first, exactly as in the source). -/
def condScore (f : ScoreConds) : Int :=
  (if f.handleEq then 100 else 0) + (if f.exeEq then 50 else 0) +
  (if f.exeTarget then 50 else 0) + (if f.titleKw then 25 else 0) +
  (if f.classEq then 10 else 0) + (if f.pidEq then 8 else 0) +
  (if f.prevSub then 6 else if f.prevKw then 4 else 0) +
  (if f.classFrame then 5 else 0)

/-- The scoring-condition truth values of a candidate/signature pair, given
the executable name resolved for the candidate. -/
def scoreFlags (c : Candidate) (sig : Signature) (exe_name : String) : ScoreConds :=
  let title := pyLower (c.title.getD "")
  let cls := c.class_name.getD ""
  let prev := pyLower (sig.title.getD "")
  { handleEq := optIntTruthy sig.handle && (c.handle == sig.handle)
    exeEq := optStrTruthy sig.exe_name && (sig.exe_name == some exe_name)
    exeTarget := pyIn "onenote.exe" exe_name
    titleKw := ONENOTE_KEYWORDS.any (fun k => pyIn k title)
    classEq := optStrTruthy sig.class_name && (sig.class_name == some cls)
    pidEq := optNatTruthy sig.pid && (c.pid == sig.pid)
    prevSub := (prev != "") && pyIn prev title
    prevKw := (prev != "") && ONENOTE_KEYWORDS.any (fun k => pyIn k prev && pyIn k title)
    classFrame := cls == ONENOTE_CLASS_NAME }

/-- Pointwise ordering of scoring-condition truth values: every condition
true on the left is still true on the right. -/
def ScoreConds.below (f g : ScoreConds) : Prop :=
  (f.handleEq = true → g.handleEq = true) ∧
  (f.exeEq = true → g.exeEq = true) ∧
  (f.exeTarget = true → g.exeTarget = true) ∧
  (f.titleKw = true → g.titleKw = true) ∧
  (f.classEq = true → g.classEq = true) ∧
  (f.pidEq = true → g.pidEq = true) ∧
  (f.prevSub = true → g.prevSub = true) ∧
  (f.prevKw = true → g.prevKw = true) ∧
  (f.classFrame = true → g.classFrame = true)

lemma ite_add_shift (b : Bool) (s x : Int) :
    (if b then s + x else s) = s + (if b then x else 0) := by
  cases b <;> simp

lemma prev_shift (p a k : Bool) (s : Int) :
    (if p then (if a then s + 6 else if k then s + 4 else s) else s) =
      s + (if p && a then 6 else if p && k then 4 else 0) := by
  cases p <;> cases a <;> cases k <;> simp

lemma score_checked_eq_condScore (env : Inspect) (c : Candidate) (sig : Signature)
    (ep : Option String) (h : inspectPid env c.pid = .ok ep) :
    score_candidate_checked env c sig = .ok (condScore (scoreFlags c sig (exe_name_of ep))) := by
  unfold score_candidate_checked
  rw [h]
  unfold condScore scoreFlags
  simp only [prev_shift]
  simp only [ite_add_shift, zero_add]

lemma ite_nonneg (b : Bool) (x : Int) (hx : 0 ≤ x) : 0 ≤ (if b then x else 0) := by
  cases b <;> simp [hx]

lemma condScore_nonneg (f : ScoreConds) : 0 ≤ condScore f := by
  unfold condScore
  refine add_nonneg (add_nonneg (add_nonneg (add_nonneg (add_nonneg (add_nonneg
    (add_nonneg ?_ ?_) ?_) ?_) ?_) ?_) ?_) ?_
  · exact ite_nonneg _ _ (by norm_num)
  · exact ite_nonneg _ _ (by norm_num)
  · exact ite_nonneg _ _ (by norm_num)
  · exact ite_nonneg _ _ (by norm_num)
  · exact ite_nonneg _ _ (by norm_num)
  · exact ite_nonneg _ _ (by norm_num)
  · cases f.prevSub <;> cases f.prevKw <;> norm_num
  · exact ite_nonneg _ _ (by norm_num)

lemma ite_mono_flag (b c : Bool) (h : b = true → c = true) (x : Int) (hx : 0 ≤ x) :
    (if b then x else 0) ≤ (if c then x else 0) := by
  cases b <;> cases c <;> simp_all

lemma prev_mono (a k a2 k2 : Bool) :
    (a = true → a2 = true) → (k = true → k2 = true) →
    (if a then (6 : Int) else if k then 4 else 0) ≤
      (if a2 then 6 else if k2 then 4 else 0) := by
  cases a <;> cases k <;> cases a2 <;> cases k2 <;> decide

lemma condScore_mono (f g : ScoreConds) (h : f.below g) : condScore f ≤ condScore g := by
  obtain ⟨h1, h2, h3, h4, h5, h6, h7, h8, h9⟩ := h
  unfold condScore
  refine add_le_add (add_le_add (add_le_add (add_le_add (add_le_add (add_le_add
    (add_le_add ?_ ?_) ?_) ?_) ?_) ?_) ?_) ?_
  · exact ite_mono_flag _ _ h1 _ (by norm_num)
  · exact ite_mono_flag _ _ h2 _ (by norm_num)
  · exact ite_mono_flag _ _ h3 _ (by norm_num)
  · exact ite_mono_flag _ _ h4 _ (by norm_num)
  · exact ite_mono_flag _ _ h5 _ (by norm_num)
  · exact ite_mono_flag _ _ h6 _ (by norm_num)
  · exact prev_mono _ _ _ _ h7 h8
  · exact ite_mono_flag _ _ h9 _ (by norm_num)

lemma score_checked_ok_inspect (env : Inspect) (c : Candidate) (sig : Signature) (s : Int)
    (h : score_candidate_checked env c sig = .ok s) :
    ∃ ep, inspectPid env c.pid = .ok ep := by
  unfold score_candidate_checked at h
  cases hi : inspectPid env c.pid with
  | error e => rw [hi] at h; exact absurd h (by simp)
  | ok ep => exact ⟨ep, rfl⟩

/-! ## WindowManager.is_onenote_window (window_manager.py lines 176-211)

The three-tier classifier.  The process-image lookup in tier 3 is the only
step that touches the OS, so the result is in the same Except monad as the
lookup itself (the source has no local handler around it). -/

def is_onenote_window (env : Inspect) (selfPid : Nat) (w : Candidate) :
    Except Unit Bool :=
  if w.pid == some selfPid then .ok false
  else
    let title_lower := pyLower (w.title.getD "")
    let cls := w.class_name.getD ""
    if pyIn "omain" (pyLower cls) then .ok true
    else if cls == ONENOTE_CLASS_NAME &&
        ONENOTE_KEYWORDS.any (fun k => pyIn k title_lower) then .ok true
    else if ONENOTE_KEYWORDS.any (fun k => pyIn k title_lower) then
      match inspectPid env w.pid with
      | .error e => .error e
      | .ok none => .ok false
      | .ok (some exe_path) =>
        let exe_name := pyLower (basename exe_path)
        .ok (ONENOTE_EXE_NAMES.any (fun n => pyIn n exe_name))
    else .ok false

/-! ## Claim theorems about scoring and classification -/

/-- C2: if the process inspection raises while scoring a candidate,
score_candidate returns exactly -1, and such a candidate scores strictly
below every successfully scored candidate (whose score is never negative,
zero included). -/
theorem claim_C2 (env : Inspect) (c c2 : Candidate) (sig : Signature) (p : Nat)
    (hp : c.pid = some p) (hp0 : p ≠ 0) (herr : env p = .error ())
    (s2 : Int) (hok : score_candidate_checked env c2 sig = .ok s2) :
    score_candidate env c sig = -1 ∧ 0 ≤ score_candidate env c2 sig ∧
      score_candidate env c sig < score_candidate env c2 sig := by
  have hi : inspectPid env c.pid = .error () := by
    simp [inspectPid, hp, hp0, herr]
  have hc : score_candidate env c sig = -1 := by
    unfold score_candidate score_candidate_checked
    rw [hi]
  obtain ⟨ep2, hep2⟩ := score_checked_ok_inspect env c2 sig s2 hok
  have e2 := score_checked_eq_condScore env c2 sig ep2 hep2
  rw [hok] at e2
  have hs2 : s2 = condScore (scoreFlags c2 sig (exe_name_of ep2)) := by
    exact Except.ok.inj e2
  have hc2 : score_candidate env c2 sig = s2 := by
    unfold score_candidate
    rw [hok]
  have hnn : 0 ≤ s2 := hs2 ▸ condScore_nonneg _
  exact ⟨hc, by omega, by omega⟩

/-- C2 witness: a concrete environment that raises for pid 3; the crashing
candidate scores -1 and loses to a candidate that scores exactly 0. -/
theorem claim_C2_witness :
    score_candidate (fun p => if p = 3 then .error () else .ok none)
        ⟨none, none, none, some 3⟩ ⟨none, none, none, none, none, none⟩ = -1 ∧
      0 ≤ score_candidate (fun p => if p = 3 then .error () else .ok none)
        ⟨none, none, none, none⟩ ⟨none, none, none, none, none, none⟩ ∧
      score_candidate (fun p => if p = 3 then .error () else .ok none)
          ⟨none, none, none, some 3⟩ ⟨none, none, none, none, none, none⟩ <
        score_candidate (fun p => if p = 3 then .error () else .ok none)
          ⟨none, none, none, none⟩ ⟨none, none, none, none, none, none⟩ :=
  claim_C2 (fun p => if p = 3 then .error () else .ok none)
    ⟨none, none, none, some 3⟩ ⟨none, none, none, none⟩
    ⟨none, none, none, none, none, none⟩ 3 rfl (by decide) rfl 0 rfl

/-- C3: the candidate score is monotone in the scoring conditions.  If a
candidate/signature pair is altered so that each scoring condition that was
true stays true (in particular: one further condition becomes true and all
others keep their truth value), the score never decreases. -/
theorem claim_C3 (env env2 : Inspect) (c c2 : Candidate) (sig : Signature)
    (ep ep2 : Option String)
    (h : inspectPid env c.pid = .ok ep) (h2 : inspectPid env2 c2.pid = .ok ep2)
    (hle : ScoreConds.below (scoreFlags c sig (exe_name_of ep))
      (scoreFlags c2 sig (exe_name_of ep2))) :
    score_candidate env c sig ≤ score_candidate env2 c2 sig := by
  have e1 := score_checked_eq_condScore env c sig ep h
  have e2 := score_checked_eq_condScore env2 c2 sig ep2 h2
  unfold score_candidate
  rw [e1, e2]
  exact condScore_mono _ _ hle

/-- C3 witness: making the candidate handle equal to the signature handle
(all other conditions unchanged, here all false) raises the score from 0 to
100, so it does not decrease. -/
theorem claim_C3_witness :
    score_candidate (fun _ => .ok none) ⟨none, none, none, none⟩
        ⟨some 5, none, none, none, none, none⟩ ≤
      score_candidate (fun _ => .ok none) ⟨some 5, none, none, none⟩
        ⟨some 5, none, none, none, none, none⟩ :=
  claim_C3 (fun _ => .ok none) (fun _ => .ok none)
    ⟨none, none, none, none⟩ ⟨some 5, none, none, none⟩
    ⟨some 5, none, none, none, none, none⟩ none none rfl rfl
    (by unfold ScoreConds.below; decide)

/-- C7: a window-info record whose pid equals the calling process's own pid
is never classified as the target, whatever its title, class name or
resolvable executable path. -/
theorem claim_C7 (env : Inspect) (selfPid : Nat) (w : Candidate)
    (h : w.pid = some selfPid) :
    is_onenote_window env selfPid w = .ok false := by
  unfold is_onenote_window
  rw [h]
  simp

/-- C7 witness: a window that looks exactly like a OneNote window in title,
class and executable is still rejected when it belongs to the calling
process (pid 7). -/
theorem claim_C7_witness :
    is_onenote_window (fun _ => .ok (some "C:\\apps\\ONENOTE.EXE")) 7
        ⟨some 1, some "OneNote", some "ApplicationFrameWindow", some 7⟩ = .ok false :=
  claim_C7 (fun _ => .ok (some "C:\\apps\\ONENOTE.EXE")) 7
    ⟨some 1, some "OneNote", some "ApplicationFrameWindow", some 7⟩ rfl

/-! ## WindowManager.enumerate_windows (window_manager.py lines 122-172)

One top-level window as the EnumWindows callback sees it.  queryThrows
models the per-window Win32 queries (visibility, text, class, pid) raising
inside the callback body; the source catches that and skips the window. -/

structure RawWindow where
  handle : Int
  visible : Bool
  title : String
  class_name : String
  pid : Nat
  queryThrows : Bool
deriving DecidableEq

/-- The filter_title_substr argument: None, a single string, or a list of
strings. -/
inductive TitleFilter
  | noFilter
  | single (s : String)
  | many (l : List String)
deriving DecidableEq

/-- Normalisation of filter_title_substr at the top of enumerate_windows:
a string becomes a one-element lowercased list, a truthy list is lowercased
elementwise, and None or an empty (falsy) list mean no filtering. -/
def normFilters : TitleFilter → Option (List String)
  | .noFilter => none
  | .single s => some [pyLower s]
  | .many l => if l = [] then none else some (l.map pyLower)

/-- The window-info record appended by the enumeration callback. -/
def rawToInfo (w : RawWindow) : Candidate :=
  ⟨some w.handle, some w.title, some w.class_name, some w.pid⟩

/-- The body of the _enum_proc callback for one window: any raising window
is skipped (the except handler), invisible windows are skipped, windows
with an empty title are skipped, and with active filters a window whose
lowercased title contains no filter substring is skipped. -/
def enum_callback (filters : Option (List String)) (w : RawWindow) : Option Candidate :=
  if w.queryThrows then none
  else if !w.visible then none
  else if w.title == "" then none
  else match filters with
    | none => some (rawToInfo w)
    | some fs =>
      if !fs.isEmpty && !(fs.any (fun f => pyIn f (pyLower w.title))) then none
      else some (rawToInfo w)

/-- WindowManager.enumerate_windows: EnumWindows drives the callback over
every top-level window in OS order; the callback appends the surviving
records. -/
def enumerate_windows (ws : List RawWindow) (filt : TitleFilter) : List Candidate :=
  ws.filterMap (enum_callback (normFilters filt))

/-- C8 counterexample: a visible top-level window whose per-window queries
do not throw but whose title is empty is omitted from an unfiltered
enumeration, so enumeration does not return a record for every visible
window with omissions only on per-window query failure. -/
theorem claim_C8_cex :
    (⟨1, true, "", "Shell_TrayWnd", 9, false⟩ : RawWindow).visible = true ∧
      (⟨1, true, "", "Shell_TrayWnd", 9, false⟩ : RawWindow).queryThrows = false ∧
      enumerate_windows [⟨1, true, "", "Shell_TrayWnd", 9, false⟩] TitleFilter.noFilter = [] := by
  exact ⟨rfl, rfl, rfl⟩

/-- C8 (amended): a record is returned exactly for the visible, non-raising
windows with a NON-EMPTY title which, when a filter is active, contain at
least one lowercased filter substring in their lowercased title; filtering
is case-insensitive and the whole enumeration is a total function (per-window
failures only skip that window). -/
lemma normFilters_ne_nil (filt : TitleFilter) (fs : List String)
    (h : normFilters filt = some fs) : fs ≠ [] := by
  cases filt with
  | noFilter => simp [normFilters] at h
  | single s =>
    simp [normFilters] at h
    exact h ▸ (by simp)
  | many l =>
    by_cases hl : l = []
    · simp [normFilters, hl] at h
    · simp only [normFilters, hl, if_neg, Option.some.injEq, if_false] at h
      have h2 : List.map pyLower l = fs := by simpa [hl] using h
      subst h2
      simp only [ne_eq, List.map_eq_nil_iff]
      exact hl

theorem claim_C8 (ws : List RawWindow) (filt : TitleFilter) (c : Candidate) :
    c ∈ enumerate_windows ws filt ↔
      ∃ w ∈ ws, w.queryThrows = false ∧ w.visible = true ∧ w.title ≠ "" ∧
        (∀ fs, normFilters filt = some fs →
          ∃ f ∈ fs, pyIn f (pyLower w.title) = true) ∧
        c = rawToInfo w := by
  unfold enumerate_windows
  rw [List.mem_filterMap]
  constructor
  · rintro ⟨w, hw, hcb⟩
    unfold enum_callback at hcb
    by_cases hq : w.queryThrows = true
    · simp [hq] at hcb
    by_cases hv : w.visible = true
    swap
    · simp [hq, hv] at hcb
    by_cases ht : w.title = ""
    · simp [hq, hv, ht] at hcb
    have ht2 : (w.title == "") = false := by simpa using ht
    cases hf : normFilters filt with
    | none =>
      rw [hf] at hcb
      refine ⟨w, hw, by simpa using hq, hv, ht, ?_, ?_⟩
      · intro fs hfs
        exact Option.noConfusion hfs
      · simp [hq, hv, ht2] at hcb
        exact hcb.symm
    | some fs =>
      rw [hf] at hcb
      have hne : fs ≠ [] := normFilters_ne_nil filt fs hf
      have hemp : fs.isEmpty = false := by simpa [List.isEmpty_iff] using hne
      by_cases hany : fs.any (fun f => pyIn f (pyLower w.title)) = true
      · refine ⟨w, hw, by simpa using hq, hv, ht, ?_, ?_⟩
        · intro fs2 hfs2
          cases hfs2
          simpa using hany
        · simp [hq, hv, ht2, hany] at hcb
          exact hcb.symm
      · simp [hq, hv, ht2, hemp, hany] at hcb
  · rintro ⟨w, hw, hq, hv, ht, hfilt, hc⟩
    refine ⟨w, hw, ?_⟩
    unfold enum_callback
    have ht2 : (w.title == "") = false := by simpa using ht
    cases hf : normFilters filt with
    | none => simp [hq, hv, ht2, hc]
    | some fs =>
      obtain ⟨f, hfmem, hfin⟩ := hfilt fs hf
      have hany : fs.any (fun f => pyIn f (pyLower w.title)) = true :=
        List.any_eq_true.mpr ⟨f, hfmem, hfin⟩
      simp [hq, hv, ht2, hany, hc]

/-- C8 witness: with filter "note", a visible non-raising window titled
"My OneNote" is enumerated (membership via the amended characterisation). -/
theorem claim_C8_witness :
    rawToInfo ⟨5, true, "My OneNote", "Cls", 2, false⟩ ∈
      enumerate_windows [⟨5, true, "My OneNote", "Cls", 2, false⟩]
        (TitleFilter.single "note") :=
  (claim_C8 [⟨5, true, "My OneNote", "Cls", 2, false⟩] (TitleFilter.single "note")
      (rawToInfo ⟨5, true, "My OneNote", "Cls", 2, false⟩)).mpr
    ⟨⟨5, true, "My OneNote", "Cls", 2, false⟩, by simp, rfl, rfl, by simp,
      fun fs hfs => by
        cases hfs
        exact ⟨pyLower "note", by simp, by decide⟩,
      rfl⟩

/-! ## ScrollingEngine.center_element_in_view
(scrolling_engine.py lines 163-233)

The engine's interactions with the accessibility layer are modelled as an
environment: whether the automation backend loads, whether the element's
ScrollIntoView capability is present and succeeds, the sequence of measured
vertical offsets (element centre minus container centre, a half-integer in
pixels, measurement 0 being the one taken right after scroll-into-view and
settle), and whether the pattern-scroll strategy reports success at each
iteration.  A raised exception in a rectangle measurement is an Except
error: the source's outer handler turns it into a False result. -/

inductive PyErr
  | attrErr
  | otherErr
deriving DecidableEq

inductive ScrollDir
  | up
  | down
deriving DecidableEq

/-- One invocation recorded against the scroll-strategy chain: a
pattern-scroll attempt with its direction and repeat count, or a wheel
fallback with its signed step count. -/
inductive ScrollCall
  | patt (dir : ScrollDir) (repeats : Int)
  | wheel (steps : Int)
deriving DecidableEq

structure CenterEnv where
  loaded : Bool
  scrollIntoView : Option PyErr
  measure : Nat → Except Unit ℚ
  patternOk : Nat → Bool

/-- The inner helper calculate_steps of center_element_in_view:
max(1, min(SCROLL_MAX_REPEATS, int(abs(dy) / 150))).  Python int() truncates
toward zero, which on the non-negative |dy| / 150 is the floor. -/
def calculate_steps (dy : ℚ) : Int :=
  max 1 (min SCROLL_MAX_REPEATS ⌊|dy| / 150⌋)

/-- The correction loop of center_element_in_view: up to fuel more
iterations, k measurements/scroll rounds already behind us, current offset,
and the scroll invocations issued so far.  Each iteration breaks once the
offset is within tolerance, otherwise issues one pattern-scroll attempt
(plus a wheel fallback if the attempt failed), then re-measures; a raising
re-measurement aborts the whole call with False.  Falling out of the loop
returns True regardless of the final offset. -/
def stepCalls (env : CenterEnv) (k : Nat) (offset : ℚ) (acc : List ScrollCall) :
    List ScrollCall :=
  acc ++ [ScrollCall.patt (if offset > 0 then ScrollDir.down else ScrollDir.up)
      (calculate_steps offset)] ++
    (if env.patternOk k then []
     else [ScrollCall.wheel
        (if offset > 0 then -(calculate_steps offset) else calculate_steps offset)])

def centerLoop (env : CenterEnv) : Nat → Nat → ℚ → List ScrollCall →
    Bool × List ScrollCall
  | 0, _, _, acc => (true, acc)
  | fuel + 1, k, offset, acc =>
    if |offset| ≤ SCROLL_CENTER_TOLERANCE then (true, acc)
    else
      match env.measure (k + 1) with
      | .error _ => (false, stepCalls env k offset acc)
      | .ok offset2 => centerLoop env fuel (k + 1) offset2 (stepCalls env k offset acc)

/-- ScrollingEngine.center_element_in_view together with the list of scroll
invocations it performs.  Failure paths before the first measurement
(backend not loaded, missing iface_scroll_item, raised ScrollIntoView) and
a raising first measurement return False with no scrolling; an offset
already within SCROLL_CENTER_TOLERANCE returns True with no scrolling;
otherwise the loop runs for at most 3 iterations. -/
def center_element_in_view (env : CenterEnv) : Bool × List ScrollCall :=
  if !env.loaded then (false, [])
  else
    match env.scrollIntoView with
    | some _ => (false, [])
    | none =>
      match env.measure 0 with
      | .error _ => (false, [])
      | .ok offset0 =>
        if |offset0| ≤ SCROLL_CENTER_TOLERANCE then (true, [])
        else centerLoop env 3 0 offset0 []

def isPatt : ScrollCall → Bool
  | .patt _ _ => true
  | .wheel _ => false

def isWheel : ScrollCall → Bool
  | .patt _ _ => false
  | .wheel _ => true

lemma stepCalls_patt (env : CenterEnv) (k : Nat) (offset : ℚ) (acc : List ScrollCall) :
    List.countP isPatt (stepCalls env k offset acc) = List.countP isPatt acc + 1 := by
  unfold stepCalls
  rw [List.countP_append, List.countP_append]
  have h1 : List.countP isPatt [ScrollCall.patt
      (if offset > 0 then ScrollDir.down else ScrollDir.up) (calculate_steps offset)] = 1 := by
    rw [List.countP_cons, List.countP_nil]
    simp [isPatt]
  have h2 : List.countP isPatt (if env.patternOk k then []
      else [ScrollCall.wheel
        (if offset > 0 then -(calculate_steps offset) else calculate_steps offset)]) = 0 := by
    cases hb : env.patternOk k
    · simp [List.countP_cons, isPatt]
    · simp
  omega

lemma stepCalls_wheel (env : CenterEnv) (k : Nat) (offset : ℚ) (acc : List ScrollCall) :
    List.countP isWheel (stepCalls env k offset acc) ≤ List.countP isWheel acc + 1 := by
  unfold stepCalls
  rw [List.countP_append, List.countP_append]
  have h1 : List.countP isWheel [ScrollCall.patt
      (if offset > 0 then ScrollDir.down else ScrollDir.up) (calculate_steps offset)] = 0 := by
    rw [List.countP_cons, List.countP_nil]
    simp [isWheel]
  have h2 : List.countP isWheel (if env.patternOk k then []
      else [ScrollCall.wheel
        (if offset > 0 then -(calculate_steps offset) else calculate_steps offset)]) ≤ 1 := by
    cases hb : env.patternOk k
    · simp [List.countP_cons, List.countP_nil, isWheel]
    · simp
  omega

lemma centerLoop_patt (env : CenterEnv) :
    ∀ (fuel k : Nat) (offset : ℚ) (acc : List ScrollCall),
      List.countP isPatt (centerLoop env fuel k offset acc).2 ≤
        List.countP isPatt acc + fuel := by
  intro fuel
  induction fuel with
  | zero => intro k offset acc; simp [centerLoop]
  | succ n ih =>
    intro k offset acc
    by_cases htol : |offset| ≤ SCROLL_CENTER_TOLERANCE
    · simp [centerLoop, htol]
    · rcases hm : env.measure (k + 1) with e | o2
      · simp only [centerLoop, if_neg htol, hm]
        rw [stepCalls_patt]
        omega
      · simp only [centerLoop, if_neg htol, hm]
        have := ih (k + 1) o2 (stepCalls env k offset acc)
        rw [stepCalls_patt] at this
        omega

lemma centerLoop_wheel (env : CenterEnv) :
    ∀ (fuel k : Nat) (offset : ℚ) (acc : List ScrollCall),
      List.countP isWheel (centerLoop env fuel k offset acc).2 ≤
        List.countP isWheel acc + fuel := by
  intro fuel
  induction fuel with
  | zero => intro k offset acc; simp [centerLoop]
  | succ n ih =>
    intro k offset acc
    by_cases htol : |offset| ≤ SCROLL_CENTER_TOLERANCE
    · simp [centerLoop, htol]
    · rcases hm : env.measure (k + 1) with e | o2
      · simp only [centerLoop, if_neg htol, hm]
        have := stepCalls_wheel env k offset acc
        omega
      · simp only [centerLoop, if_neg htol, hm]
        have h1 := ih (k + 1) o2 (stepCalls env k offset acc)
        have h2 := stepCalls_wheel env k offset acc
        omega

/-- C4: one call to center_element_in_view performs at most 3 pattern-scroll
attempts (one per chain invocation) and at most 3 wheel fallbacks, whatever
the initial offset and whether the offset ever comes within tolerance. -/
theorem claim_C4 (env : CenterEnv) :
    ((center_element_in_view env).2.countP isPatt) ≤ 3 ∧
      ((center_element_in_view env).2.countP isWheel) ≤ 3 := by
  unfold center_element_in_view
  by_cases hl : env.loaded
  · cases hs : env.scrollIntoView with
    | some e => simp [hl, hs]
    | none =>
      cases hm : env.measure 0 with
      | error e => simp [hl, hs, hm]
      | ok off0 =>
        by_cases htol : |off0| ≤ SCROLL_CENTER_TOLERANCE
        · simp [hl, hs, hm, htol]
        · have h1 := centerLoop_patt env 3 0 off0 []
          have h2 := centerLoop_wheel env 3 0 off0 []
          simp only [List.countP_nil] at h1 h2
          simp [hl, hs, hm, htol]
          omega
  · simp [hl]

/-- C5: when the first measured offset is already within the 10-pixel
tolerance (backend loaded, scroll-into-view succeeded, measurement did not
raise), center_element_in_view returns True having made no pattern-scroll
and no wheel-scroll invocation. -/
theorem claim_C5 (env : CenterEnv) (o : ℚ)
    (hl : env.loaded = true) (hs : env.scrollIntoView = none)
    (hm : env.measure 0 = .ok o) (htol : |o| ≤ 10) :
    center_element_in_view env = (true, []) := by
  unfold center_element_in_view
  rw [hl, hs, hm]
  have : |o| ≤ SCROLL_CENTER_TOLERANCE := htol
  simp [this]

/-- C5 witness: first offset 7 (within tolerance) gives True and an empty
invocation trace. -/
theorem claim_C5_witness :
    center_element_in_view ⟨true, none, fun _ => .ok 7, fun _ => true⟩ = (true, []) :=
  claim_C5 ⟨true, none, fun _ => .ok 7, fun _ => true⟩ 7 rfl rfl rfl (by norm_num)

/-- The repeat/step magnitude of one recorded scroll invocation: the repeat
count of a pattern attempt, the absolute step count of a wheel fallback. -/
def callSteps : ScrollCall → Int
  | .patt _ r => r
  | .wheel s => |s|

lemma calculate_steps_range (dy : ℚ) :
    1 ≤ calculate_steps dy ∧ calculate_steps dy ≤ 5 := by
  unfold calculate_steps SCROLL_MAX_REPEATS
  exact ⟨le_max_left _ _, max_le (by norm_num) (min_le_left _ _)⟩

lemma stepCalls_mem (env : CenterEnv) (k : Nat) (offset : ℚ) (acc : List ScrollCall)
    (c : ScrollCall) (hc : c ∈ stepCalls env k offset acc) :
    c ∈ acc ∨ (1 ≤ callSteps c ∧ callSteps c ≤ 5) := by
  unfold stepCalls at hc
  have hr := calculate_steps_range offset
  rcases List.mem_append.mp hc with h | h
  · rcases List.mem_append.mp h with h1 | h1
    · exact Or.inl h1
    · right
      rcases List.mem_singleton.mp h1 with rfl
      simpa [callSteps] using hr
  · right
    cases hb : env.patternOk k
    · rw [hb] at h
      simp only [if_neg, Bool.false_eq_true, if_false] at h
      rcases List.mem_singleton.mp h with rfl
      by_cases hpos : offset > 0
      · simp only [callSteps, hpos, if_pos]
        rw [abs_neg, abs_of_nonneg (by omega)]
        exact hr
      · simp only [callSteps, hpos, if_neg, if_false]
        rw [abs_of_nonneg (by omega)]
        exact hr
    · rw [hb] at h
      simp at h

lemma centerLoop_mem (env : CenterEnv) :
    ∀ (fuel k : Nat) (offset : ℚ) (acc : List ScrollCall) (c : ScrollCall),
      (∀ x ∈ acc, 1 ≤ callSteps x ∧ callSteps x ≤ 5) →
      c ∈ (centerLoop env fuel k offset acc).2 →
      1 ≤ callSteps c ∧ callSteps c ≤ 5 := by
  intro fuel
  induction fuel with
  | zero =>
    intro k offset acc c hacc hc
    simp only [centerLoop] at hc
    exact hacc c hc
  | succ n ih =>
    intro k offset acc c hacc hc
    by_cases htol : |offset| ≤ SCROLL_CENTER_TOLERANCE
    · simp only [centerLoop, if_pos htol] at hc
      exact hacc c hc
    · rcases hm : env.measure (k + 1) with e | o2
      · simp only [centerLoop, if_neg htol, hm] at hc
        rcases stepCalls_mem env k offset acc c hc with h | h
        · exact hacc c h
        · exact h
      · simp only [centerLoop, if_neg htol, hm] at hc
        refine ih (k + 1) o2 (stepCalls env k offset acc) c ?_ hc
        intro x hx
        rcases stepCalls_mem env k offset acc x hx with h | h
        · exact hacc x h
        · exact h

/-- C6 (amended): in every centering iteration the scroll repeat count is
max(1, min(5, floor(|offset| / 150))) — Python int() truncation, not
rounding — so every recorded pattern repeat count and wheel step magnitude
lies in [1, 5]; in particular offset 10 gives 1 repeat and offsets 750 and
10000 give 5. -/
theorem claim_C6 :
    (∀ (env : CenterEnv) (c : ScrollCall), c ∈ (center_element_in_view env).2 →
        1 ≤ callSteps c ∧ callSteps c ≤ 5) ∧
      (∀ dy : ℚ, calculate_steps dy = max 1 (min 5 ⌊|dy| / 150⌋)) ∧
      calculate_steps 10 = 1 ∧ calculate_steps 750 = 5 ∧ calculate_steps 10000 = 5 := by
  refine ⟨?_, fun dy => rfl, ?_, ?_, ?_⟩
  · intro env c hc
    unfold center_element_in_view at hc
    by_cases hl : env.loaded
    · rw [hl] at hc
      cases hs : env.scrollIntoView with
      | some e => rw [hs] at hc; simp at hc
      | none =>
        rw [hs] at hc
        rcases hm : env.measure 0 with e | o0
        · rw [hm] at hc; simp at hc
        · simp only [hm] at hc
          by_cases htol : |o0| ≤ SCROLL_CENTER_TOLERANCE
          · simp only [if_pos htol] at hc
            simp at hc
          · simp only [if_neg htol] at hc
            exact centerLoop_mem env 3 0 o0 [] c (by simp) hc
    · simp only [Bool.not_eq_true] at hl
      rw [hl] at hc
      simp at hc
  · unfold calculate_steps SCROLL_MAX_REPEATS
    norm_num
  · unfold calculate_steps SCROLL_MAX_REPEATS
    norm_num
  · unfold calculate_steps SCROLL_MAX_REPEATS
    norm_num

/-- C6 witness: an initial offset of 300 pixels produces one pattern-scroll
with repeat count 2, which the theorem places in [1, 5]. -/
theorem claim_C6_witness :
    1 ≤ callSteps (ScrollCall.patt ScrollDir.down 2) ∧
      callSteps (ScrollCall.patt ScrollDir.down 2) ≤ 5 := by
  have hcs : calculate_steps 300 = 2 := by
    unfold calculate_steps SCROLL_MAX_REPEATS
    norm_num
  have htr : (center_element_in_view
      ⟨true, none, fun k => .ok (if k = 0 then 300 else 0), fun _ => true⟩).2 =
      [ScrollCall.patt ScrollDir.down 2] := by
    norm_num [center_element_in_view, centerLoop, stepCalls, hcs,
      SCROLL_CENTER_TOLERANCE]
  exact claim_C6.1 ⟨true, none, fun k => .ok (if k = 0 then 300 else 0), fun _ => true⟩
    (ScrollCall.patt ScrollDir.down 2) (by rw [htr]; exact List.mem_singleton_self _)

/-- C6 counterexample: at an initial offset of 299 pixels the engine
performs a pattern scroll with repeat count 1 (truncation of 299 / 150),
while the claimed formula clamp(round(|offset| / 150), 1, 5) gives 2, so
the recorded repeat count differs from the claimed formula. -/
theorem claim_C6_cex :
    (center_element_in_view
        ⟨true, none, fun k => .ok (if k = 0 then 299 else 0), fun _ => true⟩).2 =
        [ScrollCall.patt ScrollDir.down 1] ∧
      max 1 (min 5 (round ((299 : ℚ) / 150))) = 2 ∧ (1 : Int) ≠ 2 := by
  refine ⟨?_, ?_, by decide⟩
  · have hcs : calculate_steps 299 = 1 := by
      unfold calculate_steps SCROLL_MAX_REPEATS
      norm_num
    norm_num [center_element_in_view, centerLoop, stepCalls, hcs,
      SCROLL_CENTER_TOLERANCE]
  · rw [round_eq]
    norm_num

/-! ## WindowManager.find_window_by_signature
(window_manager.py lines 338-386)

The pywinauto surface is modelled by an environment: whether pywinauto
imports successfully, and what opening a window by handle followed by
is_visible() observes (error = an exception was raised, ok b = the window
opened with visibility b).  The returned pywinauto window object is
identified by the handle it was opened with.  The enumeration's result
(candidates) and the process inspection used by score_candidate complete
the environment. -/

structure ResolveEnv where
  importOk : Bool
  openVisible : Int → Except Unit Bool
  candidates : List Candidate
  inspect : Inspect

/-- The fast path: if the stored handle is truthy, open a window by that
exact handle and return it if it is visible; an exception or an invisible
window falls through to the scored fallback. -/
def fast_path (env : ResolveEnv) (sig : Signature) : Option Int :=
  match sig.handle with
  | none => none
  | some h =>
    if h ≠ 0 then
      match env.openVisible h with
      | .ok true => some h
      | .ok false => none
      | .error _ => none
    else none

/-- One step of the best-candidate fold: a later candidate replaces the
current best only on a strictly greater score. -/
def best_step (f : Candidate → Int) (bs : Option Candidate × Int) (c : Candidate) :
    Option Candidate × Int :=
  if f c > bs.2 then (some c, f c) else bs

/-- The scored fallback's accumulation over the enumerated candidates,
starting from best = None, best_score = -1. -/
def resolve_best (env : ResolveEnv) (sig : Signature) : Option Candidate × Int :=
  env.candidates.foldl (best_step (fun c => score_candidate env.inspect c sig)) (none, -1)

/-- Opening the best candidate at the end of find_window_by_signature: a
missing handle key or a raised exception yields None, an invisible window
yields None, a visible window is returned. -/
def open_candidate (env : ResolveEnv) (c : Candidate) : Option Int :=
  match c.handle with
  | none => none
  | some h =>
    match env.openVisible h with
    | .ok true => some h
    | .ok false => none
    | .error _ => none

/-- WindowManager.find_window_by_signature: a failing pywinauto import
returns None; then the fast path by stored handle; then the scored
fallback, which opens the best candidate only when one was kept and its
score reached min_score. -/
def find_window_by_signature (env : ResolveEnv) (sig : Signature) (min_score : Int) :
    Option Int :=
  if !env.importOk then none
  else
    match fast_path env sig with
    | some h => some h
    | none =>
      let bs := resolve_best env sig
      match bs.1 with
      | some best => if min_score ≤ bs.2 then open_candidate env best else none
      | none => none

lemma best_foldl_char (f : Candidate → Int) :
    ∀ (l : List Candidate) (b0 : Option Candidate) (s0 : Int),
      (l.foldl (best_step f) (b0, s0) = (b0, s0) ∧ ∀ c ∈ l, f c ≤ s0) ∨
      (∃ b l1 l2, l = l1 ++ b :: l2 ∧
        l.foldl (best_step f) (b0, s0) = (some b, f b) ∧ s0 < f b ∧
        (∀ c ∈ l1, f c < f b) ∧ (∀ c ∈ l2, f c ≤ f b)) := by
  intro l
  induction l with
  | nil => intro b0 s0; exact Or.inl ⟨rfl, by simp⟩
  | cons c l ih =>
    intro b0 s0
    by_cases hc : f c > s0
    · have hstep : best_step f (b0, s0) c = (some c, f c) := by
        unfold best_step
        rw [if_pos hc]
      rcases ih (some c) (f c) with ⟨heq, hall⟩ | ⟨b, l1, l2, hsplit, heq, hgt, h1, h2⟩
      · refine Or.inr ⟨c, [], l, by simp, ?_, hc, by simp, hall⟩
        rw [List.foldl_cons, hstep, heq]
      · refine Or.inr ⟨b, c :: l1, l2, by rw [hsplit]; rfl, ?_, lt_trans hc hgt, ?_, h2⟩
        · rw [List.foldl_cons, hstep, heq]
        · intro x hx
          rcases List.mem_cons.mp hx with rfl | hx2
          · exact hgt
          · exact h1 x hx2
    · push_neg at hc
      have hstep : best_step f (b0, s0) c = (b0, s0) := by
        unfold best_step
        rw [if_neg (by omega)]
      rcases ih b0 s0 with ⟨heq, hall⟩ | ⟨b, l1, l2, hsplit, heq, hgt, h1, h2⟩
      · refine Or.inl ⟨?_, ?_⟩
        · rw [List.foldl_cons, hstep, heq]
        · intro x hx
          rcases List.mem_cons.mp hx with rfl | hx2
          · exact hc
          · exact hall x hx2
      · refine Or.inr ⟨b, c :: l1, l2, by rw [hsplit]; rfl, ?_, hgt, ?_, h2⟩
        · rw [List.foldl_cons, hstep, heq]
        · intro x hx
          rcases List.mem_cons.mp hx with rfl | hx2
          · omega
          · exact h1 x hx2

/-- C1: when the import succeeds and the fast path yields nothing, the
scored fallback keeps the earliest-enumerated candidate with the maximal
score (any kept best splits the enumeration so that everything before it
scores strictly lower and nothing anywhere scores higher); no candidate is
kept exactly when every candidate scores -1; when a best was kept and its
score reaches min_score the call returns the result of opening that
candidate (its window when it opens visibly, otherwise None); and whenever
the best score is at most min_score - 1 the call returns None. -/
theorem claim_C1 (env : ResolveEnv) (sig : Signature) (ms : Int)
    (himp : env.importOk = true) (hfast : fast_path env sig = none) :
    (∀ b, (resolve_best env sig).1 = some b →
      (resolve_best env sig).2 = score_candidate env.inspect b sig ∧
      (∃ l1 l2, env.candidates = l1 ++ b :: l2 ∧
        (∀ c ∈ l1, score_candidate env.inspect c sig < score_candidate env.inspect b sig)) ∧
      (∀ c ∈ env.candidates,
        score_candidate env.inspect c sig ≤ score_candidate env.inspect b sig)) ∧
    ((resolve_best env sig).1 = none →
      ∀ c ∈ env.candidates, score_candidate env.inspect c sig ≤ -1) ∧
    (∀ b, (resolve_best env sig).1 = some b → ms ≤ (resolve_best env sig).2 →
      find_window_by_signature env sig ms = open_candidate env b) ∧
    ((resolve_best env sig).2 ≤ ms - 1 →
      find_window_by_signature env sig ms = none) := by
  have hchar := best_foldl_char (fun c => score_candidate env.inspect c sig)
    env.candidates none (-1)
  have hrb : resolve_best env sig =
      env.candidates.foldl (best_step (fun c => score_candidate env.inspect c sig))
        (none, -1) := rfl
  have hfind : find_window_by_signature env sig ms =
      (match (resolve_best env sig).1 with
       | some best => if ms ≤ (resolve_best env sig).2 then open_candidate env best else none
       | none => none) := by
    unfold find_window_by_signature
    rw [himp, hfast]
    simp
  refine ⟨?_, ?_, ?_, ?_⟩
  · intro b hb
    rcases hchar with ⟨heq, _⟩ | ⟨b2, l1, l2, hsplit, heq, _, h1, h2⟩
    · rw [hrb, heq] at hb
      exact absurd hb (by simp)
    · rw [hrb, heq] at hb ⊢
      obtain rfl : b2 = b := by simpa using hb
      refine ⟨rfl, ⟨l1, l2, hsplit, h1⟩, ?_⟩
      intro c hcmem
      rw [hsplit] at hcmem
      rcases List.mem_append.mp hcmem with hmem | hmem
      · exact le_of_lt (h1 c hmem)
      · rcases List.mem_cons.mp hmem with rfl | hmem2
        · exact le_refl _
        · exact h2 c hmem2
  · intro hnone c hcmem
    rcases hchar with ⟨heq, hall⟩ | ⟨b2, l1, l2, hsplit, heq, _, _, _⟩
    · exact hall c hcmem
    · rw [hrb, heq] at hnone
      exact absurd hnone (by simp)
  · intro b hb hms
    rw [hfind]
    simp only [hb]
    rw [if_pos hms]
  · intro hlow
    rw [hfind]
    cases hb : (resolve_best env sig).1 with
    | none => rfl
    | some b =>
      have hnle : ¬ms ≤ (resolve_best env sig).2 := by omega
      simp [hnle]

/-- C1 witness: with a None stored handle (fast path yields nothing), two
visible candidates scoring 0 and 54 against the signature, and min_score
30, the resolver opens the maximal candidate and returns its handle 42. -/
theorem claim_C1_witness :
    find_window_by_signature
      ⟨true, fun _ => .ok true,
        [⟨some 41, some "Notepad", some "X", some 3⟩,
         ⟨some 42, some "My OneNote - page", some "ApplicationFrameWindow", some 7⟩],
        fun _ => .ok none⟩
      ⟨none, some 7, some "ApplicationFrameWindow", some "OneNote", none, none⟩
      30 = some 42 := by
  have h := claim_C1
    ⟨true, fun _ => .ok true,
      [⟨some 41, some "Notepad", some "X", some 3⟩,
       ⟨some 42, some "My OneNote - page", some "ApplicationFrameWindow", some 7⟩],
      fun _ => .ok none⟩
    ⟨none, some 7, some "ApplicationFrameWindow", some "OneNote", none, none⟩
    30 rfl rfl
  have h2 := h.2.2.1
    ⟨some 42, some "My OneNote - page", some "ApplicationFrameWindow", some 7⟩
    (by decide) (by decide)
  rw [h2]
  rfl

/-! ## WindowManager.get_process_image_path (window_manager.py lines 62-118)

The Win32 surface: OpenProcess either yields a handle or not, and
QueryFullProcessImageNameW, given the current buffer size, either succeeds
with the image path or fails with a last-error code (122 =
ERROR_INSUFFICIENT_BUFFER). -/

structure ProcOS where
  openOk : Bool
  query : Nat → Except Nat String

/-- Events on the opened process handle, recorded to state the
release-on-every-exit-path guarantee of the try/finally block. -/
inductive HandleEvent
  | opened
  | closed
deriving DecidableEq

/-- The retry loop of get_process_image_path: query with the current buffer
size; on success return the path, on error 122 with size still below 4096
double the size and retry, on any other failure give up.  Starting from
size 512 the loop visits at most the sizes 512, 1024, 2048, 4096, so fuel 4
never cuts it short (queryLoop_fuel below). -/
def queryLoop (q : Nat → Except Nat String) : Nat → Nat → Option String
  | 0, _ => none
  | fuel + 1, size =>
    match q size with
    | .ok s => some s
    | .error e => if e = 122 ∧ size < 4096 then queryLoop q fuel (2 * size) else none

/-- Fuel 4 is exact for the start size 512: extra fuel never changes the
result, because after three doublings the size reaches 4096 and the
size < 4096 guard stops the loop. -/
lemma queryLoop_fuel (q : Nat → Except Nat String) (extra : Nat) :
    queryLoop q (extra + 4) 512 = queryLoop q 4 512 := by
  rcases h0 : q 512 with e0 | s0
  · by_cases he0 : e0 = 122
    · subst he0
      rcases h1 : q 1024 with e1 | s1
      · by_cases he1 : e1 = 122
        · subst he1
          rcases h2 : q 2048 with e2 | s2
          · by_cases he2 : e2 = 122
            · subst he2
              rcases h3 : q 4096 with e3 | s3
              · simp [queryLoop, h0, h1, h2, h3]
              · simp [queryLoop, h0, h1, h2, h3]
            · simp [queryLoop, h0, h1, h2, he2]
          · simp [queryLoop, h0, h1, h2]
        · simp [queryLoop, h0, h1, he1]
      · simp [queryLoop, h0, h1]
    · simp [queryLoop, h0, he0]
  · simp [queryLoop, h0]

/-- WindowManager.get_process_image_path together with the handle events it
performs: a falsy pid returns None before any OS call; a failed OpenProcess
returns None with no handle ever created; otherwise the retry loop runs
inside try, and the finally clause closes the handle on every exit path. -/
def get_process_image_path (os : ProcOS) (pid : Nat) :
    Option String × List HandleEvent :=
  if pid = 0 then (none, [])
  else if !os.openOk then (none, [])
  else (queryLoop os.query 4 512, [HandleEvent.opened, HandleEvent.closed])

lemma queryLoop4_some (q : Nat → Except Nat String) (s : String) :
    queryLoop q 4 512 = some s ↔
      (q 512 = .ok s ∨ (q 512 = .error 122 ∧ (q 1024 = .ok s ∨ (q 1024 = .error 122 ∧
        (q 2048 = .ok s ∨ (q 2048 = .error 122 ∧ q 4096 = .ok s)))))) := by
  rcases h0 : q 512 with e0 | s0
  · by_cases he0 : e0 = 122
    · subst he0
      rcases h1 : q 1024 with e1 | s1
      · by_cases he1 : e1 = 122
        · subst he1
          rcases h2 : q 2048 with e2 | s2
          · by_cases he2 : e2 = 122
            · subst he2
              rcases h3 : q 4096 with e3 | s3
              · simp [queryLoop, h0, h1, h2, h3]
              · simp [queryLoop, h0, h1, h2, h3]
            · simp [queryLoop, h0, h1, h2, he2]
          · simp [queryLoop, h0, h1, h2]
        · simp [queryLoop, h0, h1, he1]
      · simp [queryLoop, h0, h1]
    · simp [queryLoop, h0, he0]
  · simp [queryLoop, h0]

/-- C9 (amended): the call returns a path exactly when the pid is truthy,
the process opens, and some attempt of the buffer-doubling chain 512, 1024,
2048, 4096 succeeds with every earlier attempt failing with error 122
(buffer too small); it returns None otherwise — in particular the doubling
retries continue past the first retry while the error stays 122 and the
size stays below 4096; and the opened handle is closed exactly as often as
it is opened on every exit path. -/
theorem claim_C9 (os : ProcOS) (pid : Nat) :
    (∀ s, (get_process_image_path os pid).1 = some s ↔
      (pid ≠ 0 ∧ os.openOk = true ∧
        (os.query 512 = .ok s ∨ (os.query 512 = .error 122 ∧
          (os.query 1024 = .ok s ∨ (os.query 1024 = .error 122 ∧
            (os.query 2048 = .ok s ∨ (os.query 2048 = .error 122 ∧
              os.query 4096 = .ok s)))))))) ∧
    (get_process_image_path os pid).2.count HandleEvent.opened =
      (get_process_image_path os pid).2.count HandleEvent.closed := by
  constructor
  · intro s
    by_cases hp : pid = 0
    · simp [get_process_image_path, hp]
    · by_cases ho : os.openOk
      · simp [get_process_image_path, hp, ho, queryLoop4_some]
      · simp [get_process_image_path, hp, ho]
  · by_cases hp : pid = 0
    · simp [get_process_image_path, hp]
    · by_cases ho : os.openOk
      · simp [get_process_image_path, hp, ho]
      · simp [get_process_image_path, hp, ho]

/-- C9 witness: a process whose image path query succeeds at the first 512
buffer returns that path (applied through the amended characterisation). -/
theorem claim_C9_witness :
    (get_process_image_path ⟨true, fun _ => .ok "C:\\WINDOWS\\x.exe"⟩ 5).1 =
      some "C:\\WINDOWS\\x.exe" :=
  ((claim_C9 ⟨true, fun _ => .ok "C:\\WINDOWS\\x.exe"⟩ 5).1 "C:\\WINDOWS\\x.exe").mpr
    ⟨by decide, rfl, Or.inl rfl⟩

/-- C9 counterexample: the first attempt reports buffer-too-small (122) and
the once-doubled 1024 retry fails the same way, yet the call still returns
the path, because the code goes on doubling to 2048 — so "returns null when
reading still fails after retrying once with a doubled buffer" is false. -/
theorem claim_C9_cex :
    (get_process_image_path
        ⟨true, fun size => if 2048 ≤ size then .ok "C:\\app.exe" else .error 122⟩ 7).1 =
        some "C:\\app.exe" ∧
      (⟨true, fun size => if 2048 ≤ size then .ok "C:\\app.exe" else .error 122⟩ :
        ProcOS).query 512 = .error 122 ∧
      (⟨true, fun size => if 2048 ≤ size then .ok "C:\\app.exe" else .error 122⟩ :
        ProcOS).query 1024 = .error 122 := by
  refine ⟨?_, rfl, rfl⟩
  rfl

/-! ## ScrollingEngine.scroll_selected_to_center
(scrolling_engine.py lines 237-274)

The UI-automation collaborators: finding a Tree/List control in the window
(may raise, may yield a falsy result), reading the selected item (likewise),
reading the selected item's display text (may raise), and the environment
driving the inner center_element_in_view call, which itself never raises. -/

structure SelectEnv where
  loaded : Bool
  findTree : Except Unit (Option Nat)
  getSelected : Except Unit (Option Nat)
  windowText : Except Unit String
  centering : CenterEnv

/-- ScrollingEngine.scroll_selected_to_center: the (success, item name)
pair handed back to the caller.  Every failure path — backend not loaded,
no tree/list control, no selected item, a raised exception, or a failed
centering — yields (false, None); only a successful centering returns the
selected item's display text. -/
def scroll_selected_to_center (env : SelectEnv) (tree_control : Option Nat) :
    Bool × Option String :=
  if !env.loaded then (false, none)
  else
    match (match tree_control with
           | some t => Except.ok (some t)
           | none => env.findTree) with
    | .error _ => (false, none)
    | .ok none => (false, none)
    | .ok (some _) =>
      match env.getSelected with
      | .error _ => (false, none)
      | .ok none => (false, none)
      | .ok (some _) =>
        match env.windowText with
        | .error _ => (false, none)
        | .ok item_name =>
          let success := (center_element_in_view env.centering).1
          (success, if success then some item_name else none)

/-- C10: the result of scroll_selected_to_center is either (true, name)
with name the selected element's display text, or (false, None): a false
success flag is never accompanied by a stale element name. -/
theorem claim_C10 (env : SelectEnv) (tree_control : Option Nat) :
    ((scroll_selected_to_center env tree_control).1 = false →
      (scroll_selected_to_center env tree_control).2 = none) ∧
    ((scroll_selected_to_center env tree_control).1 = true →
      ∃ nm, env.windowText = .ok nm ∧
        (scroll_selected_to_center env tree_control).2 = some nm) := by
  unfold scroll_selected_to_center
  by_cases hl : env.loaded
  · simp only [hl, Bool.not_true, Bool.false_eq_true, if_false]
    cases htc : tree_control with
    | some t =>
      cases hsel : env.getSelected with
      | error e => simp
      | ok osel =>
        cases osel with
        | none => simp
        | some it =>
          cases htxt : env.windowText with
          | error e => simp
          | ok nm =>
            by_cases hsucc : (center_element_in_view env.centering).1 = true
            · simp [hsucc]
            · simp only [Bool.not_eq_true] at hsucc
              simp [hsucc]
    | none =>
      cases hft : env.findTree with
      | error e => simp
      | ok otree =>
        cases otree with
        | none => simp
        | some t =>
          cases hsel : env.getSelected with
          | error e => simp
          | ok osel =>
            cases osel with
            | none => simp
            | some it =>
              cases htxt : env.windowText with
              | error e => simp
              | ok nm =>
                by_cases hsucc : (center_element_in_view env.centering).1 = true
                · simp [hsucc]
                · simp only [Bool.not_eq_true] at hsucc
                  simp [hsucc]
  · simp only [Bool.not_eq_true] at hl
    simp [hl]

/-- C10 witness: with everything succeeding and the element already
centred, the call returns (true, "Section A"); applying the theorem shows
the name accompanies the true flag. -/
theorem claim_C10_witness :
    ∃ nm, (⟨true, .ok (some 1), .ok (some 2), .ok "Section A",
        ⟨true, none, fun _ => .ok 0, fun _ => true⟩⟩ : SelectEnv).windowText =
          .ok nm ∧
      (scroll_selected_to_center
        ⟨true, .ok (some 1), .ok (some 2), .ok "Section A",
          ⟨true, none, fun _ => .ok 0, fun _ => true⟩⟩ none).2 = some nm :=
  (claim_C10 ⟨true, .ok (some 1), .ok (some 2), .ok "Section A",
      ⟨true, none, fun _ => .ok 0, fun _ => true⟩⟩ none).2 (by decide)

end OneNoteRemocon
